import Mathlib

/-!
Verification of the `pp-drug-search` matching engine and section extractor.

The embedding follows the two core modules:

* `app/services/icd10_mapper.py` — `ICD10Mapper.get_icd10_matches_above_threshold`,
  `ICD10Mapper.find_best_icd10_match`, `ICD10Mapper.map_indication`,
  `ICD10Mapper.get_synonyms` and the `MEDICAL_SYNONYMS` table with its
  symmetric `synonym_lookup`.
* `app/extractor/dailymed_extractor.py` — `DailyMedExtractor.extract_indication`,
  `DailyMedExtractor.extract_directions`, `DailyMedExtractor.process_table`.

Modelling conventions.  Third-party numerical libraries (spaCy, scikit-learn,
numpy) are not code of this repository: the TF-IDF / cosine-similarity pipeline
(preprocess, synonym expansion, vectorize, cosine against every catalog row) is
represented by its result, a vector of per-catalog-entry similarity scores,
passed to the embedded functions as `List ℚ` (or as `Except String (List ℚ)`
where the Python wraps the computation in `try/except`, the `error` case
standing for a raised exception).  All similarity scores are rationals; the
claims under study depend only on order comparisons, never on floating-point
rounding.  Python `set` values are embedded as `List String` up to membership;
Python's `str.lower` on the ASCII data appearing here is `pyLower`; Python's
substring test `a in b` is `pyIn`.  Every embedded function is total, so
"returns without raising" is expressed by the function being defined on all
inputs, with raised-and-caught exceptions made explicit via `Except`/`Option`.
-/

/-- One row of the ICD-10 catalog: `icd10_df` holds (code, description,
category) triples loaded from the database at construction. -/
structure ICD10Entry where
  code : String
  description : String
  category : String
deriving DecidableEq, Repr

/-- Default entry used for out-of-range index access (never reached when the
score vector is index-aligned with the catalog, as in the source). -/
def ICD10Entry.dflt : ICD10Entry := ⟨"", "", ""⟩

/-- One element of the list returned by `get_icd10_matches_above_threshold`:
the Python dict with keys `icd10_code`, `icd10_description`, `icd10_category`,
`confidence_score`. -/
structure MatchDict where
  icd10_code : String
  icd10_description : String
  icd10_category : String
  confidence_score : ℚ
deriving DecidableEq, Repr

/-- `np.where(similarity_scores >= threshold)[0]`: indices (in ascending
order) whose score clears the threshold. -/
def whereAboveThreshold (scores : List ℚ) (threshold : ℚ) : List ℕ :=
  (List.range scores.length).filter (fun i => threshold ≤ scores.getD i 0)

/-- Insert index `i` into a list of indices kept in descending score order
(auxiliary for `sortIdxDesc`). -/
def insertIdxDesc (scores : List ℚ) (i : ℕ) : List ℕ → List ℕ
  | [] => [i]
  | j :: rest =>
    if scores.getD j 0 ≤ scores.getD i 0 then i :: j :: rest
    else j :: insertIdxDesc scores i rest

/-- `np.argsort(...)[::-1]` applied to the surviving indices: sort indices so
that their scores are in descending order. -/
def sortIdxDesc (scores : List ℚ) : List ℕ → List ℕ
  | [] => []
  | i :: rest => insertIdxDesc scores i (sortIdxDesc scores rest)

/-- Body of `ICD10Mapper.get_icd10_matches_above_threshold` downstream of the
similarity computation: keep indices with score `>= threshold`, sort by score
descending, truncate to `max_matches`, and build the result dicts. -/
def get_icd10_matches_core (catalog : List ICD10Entry) (scores : List ℚ)
    (threshold : ℚ) (max_matches : ℕ) : List MatchDict :=
  let matches_above_threshold := whereAboveThreshold scores threshold
  let sorted_indices := sortIdxDesc scores matches_above_threshold
  let top_indices := sorted_indices.take max_matches
  top_indices.map (fun i =>
    { icd10_code := (catalog.getD i ICD10Entry.dflt).code
      icd10_description := (catalog.getD i ICD10Entry.dflt).description
      icd10_category := (catalog.getD i ICD10Entry.dflt).category
      confidence_score := scores.getD i 0 })

/-- `ICD10Mapper.get_icd10_matches_above_threshold`: the whole method body is
wrapped in `try/except Exception: return []`, so a raised exception anywhere in
the similarity pipeline (the `Except.error` case) is caught, logged, and turned
into the empty list. -/
def get_icd10_matches_above_threshold (catalog : List ICD10Entry)
    (scoresE : Except String (List ℚ)) (threshold : ℚ) (max_matches : ℕ) :
    List MatchDict :=
  match scoresE with
  | Except.error _ => []
  | Except.ok scores => get_icd10_matches_core catalog scores threshold max_matches

/-- Python heterogeneous tuple component, used to state the shape of
`find_best_icd10_match`'s return value (`None`, a string, or a number). -/
inductive PyVal where
  | none : PyVal
  | str : String → PyVal
  | num : ℚ → PyVal
deriving DecidableEq, Repr

/-- `np.argmax`: first index attaining the maximum; `Option.none` for the
empty array (where numpy raises, which the caller's `except` catches). -/
def npArgmax (scores : List ℚ) : Option ℕ :=
  match scores with
  | [] => Option.none
  | s :: rest =>
    let best := (rest.foldl (fun (p : ℕ × ℚ × ℕ) s' =>
      let (bi, bv, k) := p
      if bv < s' then (k, s', k + 1) else (bi, bv, k + 1)) (0, s, 1))
    Option.some best.1

/-- Body of `ICD10Mapper.find_best_icd10_match` downstream of the similarity
computation: take the argmax score; below the threshold return the 3-tuple
`(None, None, 0.0)`, otherwise the 4-tuple `(code, description, category,
score)`.  An empty score array makes `np.argmax` raise, which the `except`
turns into the 3-tuple as well. -/
def find_best_core (catalog : List ICD10Entry) (scores : List ℚ)
    (threshold : ℚ) : List PyVal :=
  match npArgmax scores with
  | Option.none => [PyVal.none, PyVal.none, PyVal.num 0]
  | Option.some best_match_idx =>
    let confidence_score := scores.getD best_match_idx 0
    if confidence_score < threshold then [PyVal.none, PyVal.none, PyVal.num 0]
    else
      [PyVal.str (catalog.getD best_match_idx ICD10Entry.dflt).code,
       PyVal.str (catalog.getD best_match_idx ICD10Entry.dflt).description,
       PyVal.str (catalog.getD best_match_idx ICD10Entry.dflt).category,
       PyVal.num confidence_score]

/-- `ICD10Mapper.find_best_icd10_match`: wrapped in `try/except Exception:
return None, None, 0.0`. -/
def find_best_icd10_match (catalog : List ICD10Entry)
    (scoresE : Except String (List ℚ)) (threshold : ℚ) : List PyVal :=
  match scoresE with
  | Except.error _ => [PyVal.none, PyVal.none, PyVal.num 0]
  | Except.ok scores => find_best_core catalog scores threshold

/-- Result shape of `ICD10Mapper.map_indication` on success. -/
structure MappedIndication where
  original_text : String
  match_list : List MatchDict
deriving DecidableEq, Repr

/-- `ICD10Mapper.map_indication`: call the ranked multi-match shape
(`threshold=0.5`, `max_matches=10`) and return `None` when the list is
empty. -/
def map_indication (catalog : List ICD10Entry)
    (scorer : String → Except String (List ℚ)) (indication : String) :
    Option MappedIndication :=
  let ms := get_icd10_matches_above_threshold catalog (scorer indication)
    (mkRat 5 10) 10
  if ms.length = 0 then Option.none
  else Option.some { original_text := indication, match_list := ms }

/-- Python `str.lower` on one ASCII character. -/
def pyLowerChar (c : Char) : Char :=
  if 'A' ≤ c ∧ c ≤ 'Z' then Char.ofNat (c.toNat + 32) else c

/-- Python `str.lower` (the strings appearing in the extractor are ASCII). -/
def pyLower (s : String) : String := ⟨s.data.map pyLowerChar⟩

/-- Python substring test `needle in hay`. -/
def pyIn (needle hay : String) : Bool :=
  (List.range (hay.data.length + 1)).any
    (fun i => ((hay.data.drop i).take needle.data.length) == needle.data)

/-- `INDICATION_KEYWORDS` from `dailymed_extractor.py`. -/
def INDICATION_KEYWORDS : List String :=
  ["Indications", "Indication", "Use", "Uses", "Usage",
   "INDICATIONS AND USAGE", "INDICATIONS & USAGE", "INDICATIONS &amp; USAGE"]

/-- `DIRECTION_KEYWORDS` from `dailymed_extractor.py`. -/
def DIRECTION_KEYWORDS : List String :=
  ["Directions", "Direction", "Administration", "DOSAGE AND ADMINISTRATION",
   "DOSAGE & ADMINISTRATION", "How to use", "Method of Administration"]

/-- The `<text>` element of an SPL section, with each markup node already
rendered by `get_text_content` to the string that function returns: the
paragraphs in order, the `<list>` elements (each a list of item strings), the
tables (each a list of rows, each row a list of cell strings; an empty string
is an empty cell), and the direct text of the `<text>` element itself. -/
structure SectionBody where
  paragraphs : List String
  lists : List (List String)
  tables : List (List (List String))
  directText : String
deriving DecidableEq, Repr

/-- One `<section>` of the parsed SPL document: the `code` attribute values of
its `<code>` children (so `section.find("code", {"code": c})` succeeds iff `c`
is in the list), the `get_text_content` of its `<title>` if present, and its
`<text>` element if present. -/
structure SPLSection where
  codes : List String
  title : Option String
  body : Option SectionBody
deriving DecidableEq, Repr

/-- A parsed SPL document: `soup.find_all("section")` in document order. -/
abbrev SPLDocument := List SPLSection

/-- `DailyMedExtractor.process_table`: serialize each row as the nonempty
cells joined with `" - "`, dropping rows with no nonempty cell. -/
def process_table (table : List (List String)) : List String :=
  table.filterMap (fun row =>
    let row_text := row.filter (fun cell => cell ≠ "")
    if row_text = [] then Option.none
    else Option.some (String.intercalate " - " row_text))

/-- The body-extraction block of `extract_indication` (used for both the
code-matched and the title-matched branch): append nonempty paragraph texts,
then nonempty list-item texts, then the direct text when it is nonempty and
not already present.  `acc` is the `indications` list accumulated so far;
tables are NOT processed on this path. -/
def extractBodyIndication (acc : List String) (b : SectionBody) : List String :=
  let acc := acc ++ b.paragraphs.filter (fun t => t ≠ "")
  let acc := acc ++ (b.lists.flatten.filter (fun t => t ≠ ""))
  let t := b.directText
  if t ≠ "" ∧ t ∉ acc then acc ++ [t] else acc

/-- The body-extraction block of `extract_directions`: nonempty paragraphs,
then nonempty list items prefixed with a bullet `"• "`, then the serialized
table rows, then the direct text when nonempty and not already present. -/
def extractBodyDirections (acc : List String) (b : SectionBody) : List String :=
  let acc := acc ++ b.paragraphs.filter (fun t => t ≠ "")
  let acc := acc ++ ((b.lists.flatten.filter (fun t => t ≠ "")).map
    (fun t => "• " ++ t))
  let acc := acc ++ (b.tables.map process_table).flatten
  let t := b.directText
  if t ≠ "" ∧ t ∉ acc then acc ++ [t] else acc

/-- Title predicate of `extract_indication`: some keyword, lowercased, is
EQUAL to the (already lowercased) title text. -/
def titleMatchesIndication (title_text : String) : Bool :=
  INDICATION_KEYWORDS.any (fun keyword => pyLower keyword == title_text)

/-- Title predicate of `extract_directions`: some keyword, lowercased, is
CONTAINED in the (already lowercased) title text. -/
def titleMatchesDirections (title_text : String) : Bool :=
  DIRECTION_KEYWORDS.any (fun keyword => pyIn (pyLower keyword) title_text)

/-- One iteration of `extract_indication`'s section loop: a section carrying
LOINC code 34067-9 is extracted and the loop `continue`s, so its title is
never examined; otherwise a present title equal (case-insensitively) to a
keyword triggers the same extraction. -/
def processSectionIndication (acc : List String) (s : SPLSection) :
    List String :=
  if s.codes.contains "34067-9" then
    match s.body with
    | Option.some b => extractBodyIndication acc b
    | Option.none => acc
  else
    match s.title with
    | Option.some title =>
      if titleMatchesIndication (pyLower title) then
        match s.body with
        | Option.some b => extractBodyIndication acc b
        | Option.none => acc
      else acc
    | Option.none => acc

/-- One iteration of `extract_directions`'s section loop: LOINC code 34068-7
takes precedence and `continue`s; otherwise a present title containing a
keyword (case-insensitively) triggers extraction. -/
def processSectionDirections (acc : List String) (s : SPLSection) :
    List String :=
  if s.codes.contains "34068-7" then
    match s.body with
    | Option.some b => extractBodyDirections acc b
    | Option.none => acc
  else
    match s.title with
    | Option.some title =>
      if titleMatchesDirections (pyLower title) then
        match s.body with
        | Option.some b => extractBodyDirections acc b
        | Option.none => acc
      else acc
    | Option.none => acc

/-- Python keep-first deduplication
`seen = set(); [x for x in l if not (x in seen or seen.add(x))]`,
generalized over the already-seen set. -/
def dedupFirstAux (seen : List String) : List String → List String
  | [] => []
  | x :: xs =>
    if x ∈ seen then dedupFirstAux seen xs
    else x :: dedupFirstAux (x :: seen) xs

/-- Keep-first deduplication starting from the empty seen-set. -/
def dedupFirst (l : List String) : List String := dedupFirstAux [] l

/-- The `indications` list accumulated over all sections of the document. -/
def indication_fragments (doc : SPLDocument) : List String :=
  doc.foldl processSectionIndication []

/-- The `directions` list accumulated over all sections of the document. -/
def directions_fragments (doc : SPLDocument) : List String :=
  doc.foldl processSectionDirections []

/-- `DailyMedExtractor.extract_indication`: parse the XML (the `Except.error`
case stands for a raised parsing exception, caught by the method's `except`
which returns `None`), walk the sections, and return the accumulated
fragments deduplicated keeping first occurrences. -/
def extract_indication (parsed : Except String SPLDocument) :
    Option (List String) :=
  match parsed with
  | Except.error _ => Option.none
  | Except.ok doc => Option.some (dedupFirst (indication_fragments doc))

/-- `DailyMedExtractor.extract_directions`: as `extract_indication` but the
deduplicated fragments are joined with newlines into a single string. -/
def extract_directions (parsed : Except String SPLDocument) : Option String :=
  match parsed with
  | Except.error _ => Option.none
  | Except.ok doc =>
    Option.some (String.intercalate "\n" (dedupFirst (directions_fragments doc)))

/-- The `MEDICAL_SYNONYMS` table from `icd10_mapper.py`, as ordered
(term, synonym set) pairs; Python `set` literals are embedded as lists up to
membership. -/
def MEDICAL_SYNONYMS : List (String × List String) :=
  [("hypertension",
    ["high blood pressure", "elevated blood pressure", "elevated blood-pressure",
     "htn", "blood pressure high", "bp high", "elevated bp",
     "increased blood pressure", "increased bp"]),
   ("diabetes",
    ["diabetes mellitus", "dm", "diabetes type 2", "type 2 diabetes",
     "diabetes type 1", "type 1 diabetes", "diabetes mellitus type 2",
     "diabetes mellitus type 1", "diabetic"]),
   ("headache",
    ["cephalalgia", "cephalgia", "head pain", "migraine", "head ache",
     "cephalic pain", "cranial pain"]),
   ("fever",
    ["pyrexia", "febrile", "hyperthermia", "elevated temperature",
     "high temperature", "febrile illness", "febrile episode"]),
   ("nausea",
    ["queasiness", "sick to stomach", "upset stomach", "stomach upset",
     "feeling sick", "nauseous", "nauseated"]),
   ("vomiting",
    ["emesis", "throwing up", "puking", "vomitus", "regurgitation",
     "nausea and vomiting", "n/v"]),
   ("fatigue",
    ["tiredness", "exhaustion", "weariness", "lethargy", "lack of energy",
     "low energy", "weakness"]),
   ("pain",
    ["ache", "discomfort", "soreness", "tenderness", "hurting", "painful",
     "suffering"]),
   ("swelling",
    ["edema", "inflammation", "swollen", "swelling", "puffiness"]),
   ("infection",
    ["bacterial infection", "viral infection", "fungal infection",
     "infectious disease", "septic", "sepsis", "contagious disease"])]

/-- The `synonym_lookup` dict built in `ICD10Mapper.__init__` — for each
(term, synonyms) row, `lookup[term] |= synonyms` and, for each synonym `s`,
`lookup[s] |= {term} | (synonyms - {s})` — read at one key, up to set
membership. -/
def synonym_lookup (key : String) : List String :=
  MEDICAL_SYNONYMS.foldl (fun acc p =>
    let acc := if key == p.1 then acc ++ p.2 else acc
    if p.2.contains key then acc ++ (p.1 :: p.2.filter (fun s => s ≠ key))
    else acc) []

/-- `self.synonym_lookup.keys()`: every canonical term and every synonym
(possibly with repetitions, which only repeat idempotent set unions). -/
def synonym_lookup_keys : List String :=
  MEDICAL_SYNONYMS.foldl (fun acc p => acc ++ [p.1] ++ p.2) []

/-- `ICD10Mapper.get_synonyms`: lowercase the input; when its spaCy vector
norm is nonzero, scan every `synonym_lookup` key and union in
`synonym_lookup[term]` for each key with nonzero vector norm whose similarity
with the input is STRICTLY greater than 0.8.  The spaCy similarity capability
and vector norms are injected as `sim` and `vecNorm`. -/
def get_synonyms (sim : String → String → ℚ) (vecNorm : String → ℚ)
    (text : String) : List String :=
  let text := pyLower text
  if vecNorm text ≠ 0 then
    synonym_lookup_keys.foldl (fun synonyms term =>
      if vecNorm term ≠ 0 ∧ sim text term > mkRat 8 10 then
        synonyms ++ synonym_lookup term
      else synonyms) []
  else []

/-- Whether `extract_indication`'s loop extracts from a section at all: the
LOINC code 34067-9 is present, or a title equal (case-insensitively) to an
indication keyword is present. -/
def matchesIndicationKind (s : SPLSection) : Bool :=
  s.codes.contains "34067-9" ||
    (match s.title with
     | Option.some t => titleMatchesIndication (pyLower t)
     | Option.none => false)

/-- Whether `extract_directions`'s loop extracts from a section at all: the
LOINC code 34068-7 is present, or a title containing (case-insensitively) a
direction keyword is present. -/
def matchesDirectionsKind (s : SPLSection) : Bool :=
  s.codes.contains "34068-7" ||
    (match s.title with
     | Option.some t => titleMatchesDirections (pyLower t)
     | Option.none => false)

/-- A two-entry catalog whose rows share the description "x"; identical
descriptions get identical TF-IDF vectors, hence exactly equal cosine
similarity against any query, so tied scores are realizable. -/
def cat2 : List ICD10Entry := [⟨"A00", "x", "c"⟩, ⟨"B00", "x", "c"⟩]

/-- A similarity capability scoring the pair ("flu", "hypertension") at
exactly 0.8 and everything else at 0. -/
def sim08 : String → String → ℚ :=
  fun a b => if a == "flu" && b == "hypertension" then mkRat 8 10 else 0

/-- A vector-norm capability that never vanishes. -/
def normOne : String → ℚ := fun _ => 1

/-- A similarity capability scoring identical strings at 1 and distinct
strings at 0. -/
def simId : String → String → ℚ := fun a b => if a == b then 1 else 0

/-- A section carrying the indications LOINC code whose `<text>` holds one
table with the row `["cell1", "cell2"]` and nothing else. -/
def secIndTable : SPLSection :=
  ⟨["34067-9"], Option.none, Option.some ⟨[], [], [[["cell1", "cell2"]]], ""⟩⟩

/-- A section carrying the directions LOINC code with the same single-row
table. -/
def secDirTable : SPLSection :=
  ⟨["34068-7"], Option.none, Option.some ⟨[], [], [[["cell1", "cell2"]]], ""⟩⟩

/-- A section carrying both LOINC codes, a direction-keyword title, and one
paragraph. -/
def secCodeTitled : SPLSection :=
  ⟨["34067-9", "34068-7"], Option.some "Directions",
   Option.some ⟨["Take one tablet."], [], [], ""⟩⟩

/-- A code-free section whose title strictly contains the direction keyword
"How to use" and also strictly contains the indication keyword "Use". -/
def secTitled : SPLSection :=
  ⟨[], Option.some "How to use lotion", Option.some ⟨["Apply daily."], [], [], ""⟩⟩

/-- A code-free section with a title matching no keyword of either kind. -/
def secUnrelated : SPLSection :=
  ⟨[], Option.some "WARNINGS", Option.some ⟨["Keep away from children."], [], [], ""⟩⟩

theorem mem_insertIdxDesc (scores : List ℚ) (i x : ℕ) (l : List ℕ) :
    x ∈ insertIdxDesc scores i l ↔ x = i ∨ x ∈ l := by
  induction l with
  | nil => simp [insertIdxDesc]
  | cons j rest ih =>
    rw [insertIdxDesc]
    by_cases hc : scores.getD j 0 ≤ scores.getD i 0
    · rw [if_pos hc]
      simp [List.mem_cons, or_comm, or_left_comm]
    · rw [if_neg hc]
      simp only [List.mem_cons, ih, or_left_comm]

theorem sorted_insertIdxDesc (scores : List ℚ) (i : ℕ) (l : List ℕ)
    (h : l.Pairwise (fun a b => scores.getD b 0 ≤ scores.getD a 0)) :
    (insertIdxDesc scores i l).Pairwise
      (fun a b => scores.getD b 0 ≤ scores.getD a 0) := by
  induction l with
  | nil => simp [insertIdxDesc]
  | cons j rest ih =>
    rcases List.pairwise_cons.mp h with ⟨hj, hrest⟩
    rw [insertIdxDesc]
    by_cases hc : scores.getD j 0 ≤ scores.getD i 0
    · rw [if_pos hc]
      refine List.pairwise_cons.mpr ⟨?_, h⟩
      intro x hx
      rcases List.mem_cons.mp hx with rfl | hx
      · exact hc
      · exact le_trans (hj x hx) hc
    · rw [if_neg hc]
      refine List.pairwise_cons.mpr ⟨?_, ih hrest⟩
      intro x hx
      rcases (mem_insertIdxDesc scores i x rest).mp hx with rfl | hx
      · exact le_of_lt (lt_of_not_le hc)
      · exact hj x hx

theorem mem_sortIdxDesc (scores : List ℚ) (x : ℕ) (l : List ℕ) :
    x ∈ sortIdxDesc scores l ↔ x ∈ l := by
  induction l with
  | nil => simp [sortIdxDesc]
  | cons i rest ih =>
    rw [sortIdxDesc, mem_insertIdxDesc, ih, List.mem_cons]

theorem sorted_sortIdxDesc (scores : List ℚ) (l : List ℕ) :
    (sortIdxDesc scores l).Pairwise
      (fun a b => scores.getD b 0 ≤ scores.getD a 0) := by
  induction l with
  | nil => exact List.Pairwise.nil
  | cons i rest ih => exact sorted_insertIdxDesc scores i _ ih

theorem mem_whereAboveThreshold (scores : List ℚ) (threshold : ℚ) (i : ℕ) :
    i ∈ whereAboveThreshold scores threshold ↔
      i < scores.length ∧ threshold ≤ scores.getD i 0 := by
  rw [whereAboveThreshold, List.mem_filter, List.mem_range]
  simp

/-- C1.  For every catalog, score vector, threshold τ and bound N,
`get_icd10_matches_above_threshold` returns at most N results, every returned
confidence score is ≥ τ, and the returned confidence scores are in descending
order — but only WEAKLY descending: the claim's "strictly descending" fails
when two catalog entries tie (see the counterexample).  Determinism for fixed
input and catalog state holds definitionally: the embedded computation is a
pure function of the catalog and the score vector. -/
theorem C1_matches_bounded_filtered_sorted (catalog : List ICD10Entry)
    (scores : List ℚ) (threshold : ℚ) (max_matches : ℕ) :
    (get_icd10_matches_above_threshold catalog (Except.ok scores) threshold
        max_matches).length ≤ max_matches ∧
    (∀ m ∈ get_icd10_matches_above_threshold catalog (Except.ok scores)
        threshold max_matches, threshold ≤ m.confidence_score) ∧
    ((get_icd10_matches_above_threshold catalog (Except.ok scores) threshold
        max_matches).map MatchDict.confidence_score).Pairwise
      (fun a b => b ≤ a) := by
  refine ⟨?_, ?_, ?_⟩
  · rw [get_icd10_matches_above_threshold, get_icd10_matches_core]
    rw [List.length_map]
    exact List.length_take_le max_matches _
  · intro m hm
    rw [get_icd10_matches_above_threshold, get_icd10_matches_core] at hm
    rcases List.mem_map.mp hm with ⟨i, hi, rfl⟩
    have hi' : i ∈ sortIdxDesc scores (whereAboveThreshold scores threshold) :=
      List.take_subset _ _ hi
    have := (mem_whereAboveThreshold scores threshold i).mp
      ((mem_sortIdxDesc scores i _).mp hi')
    exact this.2
  · have hsorted := (sorted_sortIdxDesc scores
      (whereAboveThreshold scores threshold)).sublist
      (List.take_sublist max_matches _)
    rw [get_icd10_matches_above_threshold, get_icd10_matches_core]
    rw [List.pairwise_map, List.pairwise_map]
    exact hsorted

/-- C1 witness: the general theorem applied to the concrete two-entry catalog
with scores (0.5, 0.2), threshold 0.3, bound 5. -/
theorem C1_witness :
    (get_icd10_matches_above_threshold cat2
        (Except.ok [mkRat 5 10, mkRat 2 10]) (mkRat 3 10) 5).length ≤ 5 ∧
    (∀ m ∈ get_icd10_matches_above_threshold cat2
        (Except.ok [mkRat 5 10, mkRat 2 10]) (mkRat 3 10) 5,
      mkRat 3 10 ≤ m.confidence_score) ∧
    ((get_icd10_matches_above_threshold cat2
        (Except.ok [mkRat 5 10, mkRat 2 10]) (mkRat 3 10) 5).map
      MatchDict.confidence_score).Pairwise (fun a b => b ≤ a) :=
  C1_matches_bounded_filtered_sorted cat2 [mkRat 5 10, mkRat 2 10]
    (mkRat 3 10) 5

/-- C1 counterexample to "sorted STRICTLY descending": the two catalog rows of
`cat2` share the description "x", so any query scores them identically (here
0.5 each); both clear threshold 0, both are returned, and the returned score
list (0.5, 0.5) is not strictly descending. -/
theorem C1_counterexample :
    ((get_icd10_matches_above_threshold cat2
        (Except.ok [mkRat 1 2, mkRat 1 2]) 0 5).map
      MatchDict.confidence_score) = [mkRat 1 2, mkRat 1 2] ∧
    ¬ ((get_icd10_matches_above_threshold cat2
        (Except.ok [mkRat 1 2, mkRat 1 2]) 0 5).map
      MatchDict.confidence_score).Pairwise (fun a b => b < a) := by
  constructor
  · decide
  · decide

/-- C2.  Amended: a matching-layer computation error does NOT propagate — the
method body is wrapped in `try/except Exception: return []`, so any raised
exception is caught, logged, and returned as the empty list, the very value of
an empty-but-successful no-match run; `find_best_icd10_match` likewise maps an
exception to its no-match sentinel `(None, None, 0.0)`. -/
theorem C2_errors_swallowed (catalog : List ICD10Entry) (e : String)
    (threshold : ℚ) (max_matches : ℕ) :
    get_icd10_matches_above_threshold catalog (Except.error e) threshold
        max_matches = [] ∧
    find_best_icd10_match catalog (Except.error e) threshold =
      [PyVal.none, PyVal.none, PyVal.num 0] :=
  ⟨rfl, rfl⟩

/-- C2 counterexample to "for no input does Match report an internal error as
an ordinary empty result": a raised exception (malformed/empty input vector)
is returned as `[]`, the exact value of a successful run in which no score
clears the threshold. -/
theorem C2_counterexample :
    get_icd10_matches_above_threshold cat2
        (Except.error "empty input vector") (mkRat 1 100) 5 = [] ∧
    get_icd10_matches_above_threshold cat2
        (Except.error "empty input vector") (mkRat 1 100) 5 =
      get_icd10_matches_above_threshold cat2 (Except.ok [0, 0])
        (mkRat 1 2) 10 := by
  constructor
  · rfl
  · decide

/-- C3.  If no score clears the threshold, `get_icd10_matches_above_threshold`
returns the empty list (its return type rules out null, and the embedded
function is total, so no error escapes); the witness instantiates both
required call shapes, the low-floor probe (τ = 0.01) and the strict ranked
call (τ = 0.5, N = 10) used by `map_indication`. -/
theorem C3_no_clear_empty (catalog : List ICD10Entry) (scores : List ℚ)
    (threshold : ℚ) (max_matches : ℕ) (h : ∀ s ∈ scores, s < threshold) :
    get_icd10_matches_above_threshold catalog (Except.ok scores) threshold
      max_matches = [] := by
  rw [get_icd10_matches_above_threshold, get_icd10_matches_core]
  have hempty : whereAboveThreshold scores threshold = [] := by
    rw [whereAboveThreshold, List.filter_eq_nil_iff]
    intro i hi
    have hlen : i < scores.length := List.mem_range.mp hi
    have hmem : scores.getD i 0 ∈ scores := by
      rw [List.getD_eq_getElem scores 0 hlen]
      exact List.getElem_mem hlen
    simp only [decide_eq_true_eq]
    exact not_le.mpr (h _ hmem)
  rw [hempty]
  simp [sortIdxDesc]

/-- C3 witness: both call shapes on concrete all-below-threshold score
vectors return the empty list. -/
theorem C3_witness :
    get_icd10_matches_above_threshold cat2 (Except.ok [0, mkRat 1 200])
        (mkRat 1 100) 5 = [] ∧
    get_icd10_matches_above_threshold cat2 (Except.ok [mkRat 1 10, mkRat 2 10])
        (mkRat 1 2) 10 = [] :=
  ⟨C3_no_clear_empty cat2 [0, mkRat 1 200] (mkRat 1 100) 5 (by decide),
   C3_no_clear_empty cat2 [mkRat 1 10, mkRat 2 10] (mkRat 1 2) 10 (by decide)⟩

/-- C10.  `find_best_icd10_match` returns the 4-element tuple
(code, description, category, score) when the argmax score clears the
threshold, and the 3-element tuple `(None, None, 0.0)` both when the argmax
score is below the threshold and when the computation raises: success and
failure differ in arity, and at this interface a genuine error is the very
same value as a below-threshold no-match. -/
theorem C10_best_match_shapes (catalog : List ICD10Entry) (scores : List ℚ)
    (threshold : ℚ) (e : String) (i : ℕ) :
    (find_best_icd10_match catalog (Except.error e) threshold =
        [PyVal.none, PyVal.none, PyVal.num 0] ∧
      (find_best_icd10_match catalog (Except.error e) threshold).length = 3) ∧
    (npArgmax scores = Option.some i → scores.getD i 0 < threshold →
      find_best_icd10_match catalog (Except.ok scores) threshold =
        find_best_icd10_match catalog (Except.error e) threshold ∧
      (find_best_icd10_match catalog (Except.ok scores) threshold).length = 3) ∧
    (npArgmax scores = Option.some i → threshold ≤ scores.getD i 0 →
      find_best_icd10_match catalog (Except.ok scores) threshold =
        [PyVal.str (catalog.getD i ICD10Entry.dflt).code,
         PyVal.str (catalog.getD i ICD10Entry.dflt).description,
         PyVal.str (catalog.getD i ICD10Entry.dflt).category,
         PyVal.num (scores.getD i 0)] ∧
      (find_best_icd10_match catalog (Except.ok scores) threshold).length = 4) := by
  refine ⟨⟨rfl, rfl⟩, ?_, ?_⟩
  · intro hmax hlt
    have hlt' : scores[i]?.getD 0 < threshold := by simpa using hlt
    have : find_best_icd10_match catalog (Except.ok scores) threshold =
        [PyVal.none, PyVal.none, PyVal.num 0] := by
      rw [find_best_icd10_match, find_best_core, hmax]
      simp [hlt']
    rw [this]
    exact ⟨rfl, rfl⟩
  · intro hmax hle
    have hle' : threshold ≤ scores[i]?.getD 0 := by simpa using hle
    have : find_best_icd10_match catalog (Except.ok scores) threshold =
        [PyVal.str (catalog.getD i ICD10Entry.dflt).code,
         PyVal.str (catalog.getD i ICD10Entry.dflt).description,
         PyVal.str (catalog.getD i ICD10Entry.dflt).category,
         PyVal.num (scores.getD i 0)] := by
      rw [find_best_icd10_match, find_best_core, hmax]
      simp [not_lt.mpr hle', List.getD]
    rw [this]
    exact ⟨rfl, rfl⟩

/-- C10 witness: on the concrete catalog with scores (0.3, 0.2) the probe
returns the 3-tuple under threshold 0.5, the 4-tuple under threshold 0.01,
and an error run equals the below-threshold run. -/
theorem C10_witness :
    (find_best_icd10_match cat2 (Except.error "boom") (mkRat 1 2) =
        [PyVal.none, PyVal.none, PyVal.num 0] ∧
      (find_best_icd10_match cat2 (Except.error "boom") (mkRat 1 2)).length = 3) ∧
    (find_best_icd10_match cat2 (Except.ok [mkRat 3 10, mkRat 2 10])
          (mkRat 1 2) =
        find_best_icd10_match cat2 (Except.error "boom") (mkRat 1 2) ∧
      (find_best_icd10_match cat2 (Except.ok [mkRat 3 10, mkRat 2 10])
          (mkRat 1 2)).length = 3) ∧
    (find_best_icd10_match cat2 (Except.ok [mkRat 3 10, mkRat 2 10])
          (mkRat 1 100) =
        [PyVal.str "A00", PyVal.str "x", PyVal.str "c",
         PyVal.num (mkRat 3 10)] ∧
      (find_best_icd10_match cat2 (Except.ok [mkRat 3 10, mkRat 2 10])
          (mkRat 1 100)).length = 4) :=
  ⟨(C10_best_match_shapes cat2 [mkRat 3 10, mkRat 2 10] (mkRat 1 2)
      "boom" 0).1,
   (C10_best_match_shapes cat2 [mkRat 3 10, mkRat 2 10] (mkRat 1 2)
      "boom" 0).2.1 (by decide) (by decide),
   (C10_best_match_shapes cat2 [mkRat 3 10, mkRat 2 10] (mkRat 1 100)
      "boom" 0).2.2 (by decide) (by decide)⟩

/-- C5.  A section carrying the controlled section code is extracted through
the code branch and the loop `continue`s: its title is never consulted, so
replacing the title by anything (including a keyword-matching or an absent
one) leaves the extraction of that section unchanged, for both kinds. -/
theorem C5_code_short_circuits_title (acc : List String) (sec : SPLSection)
    (t : Option String) :
    (sec.codes.contains "34067-9" = true →
      processSectionIndication acc sec =
        processSectionIndication acc ⟨sec.codes, t, sec.body⟩) ∧
    (sec.codes.contains "34068-7" = true →
      processSectionDirections acc sec =
        processSectionDirections acc ⟨sec.codes, t, sec.body⟩) := by
  constructor
  · intro h
    have h' : "34067-9" ∈ sec.codes := by simpa using h
    rw [processSectionIndication, processSectionIndication]
    simp [h']
  · intro h
    have h' : "34068-7" ∈ sec.codes := by simpa using h
    rw [processSectionDirections, processSectionDirections]
    simp [h']

/-- C5 witness: the doubly-coded titled section is extracted identically with
its title replaced by `none`, for both kinds. -/
theorem C5_witness :
    processSectionIndication [] secCodeTitled =
      processSectionIndication []
        ⟨secCodeTitled.codes, Option.none, secCodeTitled.body⟩ ∧
    processSectionDirections [] secCodeTitled =
      processSectionDirections []
        ⟨secCodeTitled.codes, Option.none, secCodeTitled.body⟩ :=
  ⟨(C5_code_short_circuits_title [] secCodeTitled Option.none).1 (by decide),
   (C5_code_short_circuits_title [] secCodeTitled Option.none).2 (by decide)⟩

theorem processSectionIndication_not_matching (acc : List String)
    (s : SPLSection) (h : matchesIndicationKind s = false) :
    processSectionIndication acc s = acc := by
  rw [matchesIndicationKind, Bool.or_eq_false_iff] at h
  have h1 : ¬ ("34067-9" ∈ s.codes) := by simpa using h.1
  have h2 := h.2
  rw [processSectionIndication]
  cases hs : s.title with
  | none => simp [h1]
  | some t =>
    rw [hs] at h2
    simp only [] at h2
    simp [h1, h2]

theorem processSectionDirections_not_matching (acc : List String)
    (s : SPLSection) (h : matchesDirectionsKind s = false) :
    processSectionDirections acc s = acc := by
  rw [matchesDirectionsKind, Bool.or_eq_false_iff] at h
  have h1 : ¬ ("34068-7" ∈ s.codes) := by simpa using h.1
  have h2 := h.2
  rw [processSectionDirections]
  cases hs : s.title with
  | none => simp [h1]
  | some t =>
    rw [hs] at h2
    simp only [] at h2
    simp [h1, h2]

theorem foldl_processSectionIndication_id (doc : SPLDocument) :
    ∀ acc : List String, (∀ sec ∈ doc, matchesIndicationKind sec = false) →
      doc.foldl processSectionIndication acc = acc := by
  induction doc with
  | nil => intro acc _; rfl
  | cons s rest ih =>
    intro acc h
    rw [List.foldl_cons,
      processSectionIndication_not_matching acc s (h s (List.mem_cons_self s rest))]
    exact ih acc (fun sec hsec => h sec (List.mem_cons_of_mem s hsec))

theorem foldl_processSectionDirections_id (doc : SPLDocument) :
    ∀ acc : List String, (∀ sec ∈ doc, matchesDirectionsKind sec = false) →
      doc.foldl processSectionDirections acc = acc := by
  induction doc with
  | nil => intro acc _; rfl
  | cons s rest ih =>
    intro acc h
    rw [List.foldl_cons,
      processSectionDirections_not_matching acc s (h s (List.mem_cons_self s rest))]
    exact ih acc (fun sec hsec => h sec (List.mem_cons_of_mem s hsec))

/-- C6.  Extraction never raises: the embedded extractors are total, a parse
failure (the `Except.error` case, covering empty or garbled markup) is caught
and returned as `None` for both kinds, and a well-parsed document in which no
section matches the kind yields the empty result (empty fragment list for
indications, empty string for directions) rather than an error. -/
theorem C6_extract_total_on_failure (e : String) (doc : SPLDocument)
    (h1 : ∀ sec ∈ doc, matchesIndicationKind sec = false)
    (h2 : ∀ sec ∈ doc, matchesDirectionsKind sec = false) :
    extract_indication (Except.error e) = Option.none ∧
    extract_directions (Except.error e) = Option.none ∧
    extract_indication (Except.ok doc) = Option.some [] ∧
    extract_directions (Except.ok doc) = Option.some "" := by
  refine ⟨rfl, rfl, ?_, ?_⟩
  · rw [extract_indication, indication_fragments,
      foldl_processSectionIndication_id doc [] h1]
    rfl
  · rw [extract_directions, directions_fragments,
      foldl_processSectionDirections_id doc [] h2]
    rfl

/-- C6 witness: garbled markup returns `None`, and a document whose only
section matches neither kind returns the empty list / empty string. -/
theorem C6_witness :
    extract_indication (Except.error "garbled markup") = Option.none ∧
    extract_directions (Except.error "garbled markup") = Option.none ∧
    extract_indication (Except.ok [secUnrelated]) = Option.some [] ∧
    extract_directions (Except.ok [secUnrelated]) = Option.some "" :=
  C6_extract_total_on_failure "garbled markup" [secUnrelated]
    (by decide) (by decide)

theorem mem_dedupFirstAux (l : List String) : ∀ (seen : List String)
    (x : String), x ∈ dedupFirstAux seen l ↔ x ∈ l ∧ x ∉ seen := by
  induction l with
  | nil => intro seen x; simp [dedupFirstAux]
  | cons y ys ih =>
    intro seen x
    rw [dedupFirstAux]
    by_cases hy : y ∈ seen
    · rw [if_pos hy, ih]
      constructor
      · rintro ⟨hxys, hxs⟩
        exact ⟨List.mem_cons_of_mem y hxys, hxs⟩
      · rintro ⟨hxy, hxs⟩
        rcases List.mem_cons.mp hxy with rfl | hxys
        · exact absurd hy hxs
        · exact ⟨hxys, hxs⟩
    · rw [if_neg hy]
      rw [List.mem_cons, ih]
      constructor
      · rintro (rfl | ⟨hxys, hxs⟩)
        · exact ⟨List.mem_cons_self x ys, hy⟩
        · refine ⟨List.mem_cons_of_mem y hxys, fun hc => hxs ?_⟩
          exact List.mem_cons_of_mem y hc
      · rintro ⟨hxy, hxs⟩
        rcases List.mem_cons.mp hxy with rfl | hxys
        · exact Or.inl rfl
        · by_cases hxy2 : x = y
          · exact Or.inl hxy2
          · refine Or.inr ⟨hxys, fun hc => ?_⟩
            rcases List.mem_cons.mp hc with rfl | hc2
            · exact hxy2 rfl
            · exact hxs hc2

theorem nodup_dedupFirstAux (l : List String) : ∀ seen : List String,
    (dedupFirstAux seen l).Nodup := by
  induction l with
  | nil => intro seen; exact List.nodup_nil
  | cons y ys ih =>
    intro seen
    rw [dedupFirstAux]
    by_cases hy : y ∈ seen
    · rw [if_pos hy]; exact ih seen
    · rw [if_neg hy]
      refine List.nodup_cons.mpr ⟨fun hc => ?_, ih (y :: seen)⟩
      exact ((mem_dedupFirstAux ys (y :: seen) y).mp hc).2
        (List.mem_cons_self y seen)

theorem sublist_dedupFirstAux (l : List String) : ∀ seen : List String,
    List.Sublist (dedupFirstAux seen l) l := by
  induction l with
  | nil => intro seen; simp [dedupFirstAux]
  | cons y ys ih =>
    intro seen
    rw [dedupFirstAux]
    by_cases hy : y ∈ seen
    · rw [if_pos hy]
      exact (ih seen).cons y
    · rw [if_neg hy]
      exact (ih (y :: seen)).cons₂ y

theorem pairwise_indexOf_dedupFirstAux (l : List String) :
    ∀ seen : List String, (dedupFirstAux seen l).Pairwise
      (fun x y => l.indexOf x < l.indexOf y) := by
  induction l with
  | nil => intro seen; simp [dedupFirstAux]
  | cons z zs ih =>
    intro seen
    have key : ∀ seen' : List String, z ∈ seen' →
        ∀ a b, a ∈ dedupFirstAux seen' zs → b ∈ dedupFirstAux seen' zs →
        zs.indexOf a < zs.indexOf b →
        (z :: zs).indexOf a < (z :: zs).indexOf b := by
      intro seen' hz a b ha hb hab
      have haz : z ≠ a := by
        rintro rfl
        exact ((mem_dedupFirstAux zs seen' _).mp ha).2 hz
      have hbz : z ≠ b := by
        rintro rfl
        exact ((mem_dedupFirstAux zs seen' _).mp hb).2 hz
      rw [List.indexOf_cons_ne _ haz, List.indexOf_cons_ne _ hbz]
      exact Nat.succ_lt_succ hab
    rw [dedupFirstAux]
    by_cases hz : z ∈ seen
    · rw [if_pos hz]
      exact List.Pairwise.imp_of_mem
        (fun ha hb hab => key seen hz _ _ ha hb hab) (ih seen)
    · rw [if_neg hz]
      refine List.pairwise_cons.mpr ⟨?_, ?_⟩
      · intro b hb
        have hbz : z ≠ b := by
          rintro rfl
          exact ((mem_dedupFirstAux zs (z :: seen) _).mp hb).2
            (List.mem_cons_self z seen)
        rw [List.indexOf_cons_self, List.indexOf_cons_ne _ hbz]
        exact Nat.succ_pos _
      · exact List.Pairwise.imp_of_mem
          (fun ha hb hab =>
            key (z :: seen) (List.mem_cons_self z seen) _ _ ha hb hab)
          (ih (z :: seen))

theorem mem_dedupFirst (l : List String) (x : String) :
    x ∈ dedupFirst l ↔ x ∈ l := by
  rw [dedupFirst, mem_dedupFirstAux]
  simp

/-- C9.  For every document, `extract_indication` returns the accumulated
fragments deduplicated (no exact-duplicate fragments: `Nodup`), as a
subsequence of the accumulated fragment sequence (order preserved) with the
same members, and its elements are ordered by strictly increasing index of
first occurrence in the accumulated sequence; `extract_directions` returns
that same deduplicated ordered sequence joined by newlines into one
string. -/
theorem C9_dedup_first_occurrence (doc : SPLDocument) :
    extract_indication (Except.ok doc) =
      Option.some (dedupFirst (indication_fragments doc)) ∧
    extract_directions (Except.ok doc) =
      Option.some (String.intercalate "\n"
        (dedupFirst (directions_fragments doc))) ∧
    (dedupFirst (indication_fragments doc)).Nodup ∧
    (dedupFirst (directions_fragments doc)).Nodup ∧
    List.Sublist (dedupFirst (indication_fragments doc))
      (indication_fragments doc) ∧
    List.Sublist (dedupFirst (directions_fragments doc))
      (directions_fragments doc) ∧
    (∀ x, x ∈ dedupFirst (indication_fragments doc) ↔
      x ∈ indication_fragments doc) ∧
    (∀ x, x ∈ dedupFirst (directions_fragments doc) ↔
      x ∈ directions_fragments doc) ∧
    (dedupFirst (indication_fragments doc)).Pairwise
      (fun x y => (indication_fragments doc).indexOf x <
        (indication_fragments doc).indexOf y) ∧
    (dedupFirst (directions_fragments doc)).Pairwise
      (fun x y => (directions_fragments doc).indexOf x <
        (directions_fragments doc).indexOf y) :=
  ⟨rfl, rfl,
   nodup_dedupFirstAux _ [], nodup_dedupFirstAux _ [],
   sublist_dedupFirstAux _ [], sublist_dedupFirstAux _ [],
   fun x => mem_dedupFirst _ x, fun x => mem_dedupFirst _ x,
   pairwise_indexOf_dedupFirstAux _ [], pairwise_indexOf_dedupFirstAux _ []⟩

/-- C9 witness: the theorem applied to a concrete one-section document. -/
theorem C9_witness :
    extract_indication (Except.ok [secTitled]) =
      Option.some (dedupFirst (indication_fragments [secTitled])) ∧
    (dedupFirst (indication_fragments [secTitled])).Nodup :=
  ⟨(C9_dedup_first_occurrence [secTitled]).1,
   (C9_dedup_first_occurrence [secTitled]).2.2.1⟩

theorem mem_extractBodyDirections_mono (acc : List String) (b : SectionBody)
    (x : String) (hx : x ∈ acc) : x ∈ extractBodyDirections acc b := by
  simp only [extractBodyDirections]
  split <;> simp [hx]

theorem row_mem_extractBodyDirections (acc : List String) (b : SectionBody)
    (t : List (List String)) (r : String) (ht : t ∈ b.tables)
    (hr : r ∈ process_table t) : r ∈ extractBodyDirections acc b := by
  have hflat : r ∈ (b.tables.map process_table).flatten :=
    List.mem_flatten.mpr ⟨process_table t, List.mem_map_of_mem _ ht, hr⟩
  simp only [extractBodyDirections]
  split <;> simp [hflat]

theorem mem_processSectionDirections_mono (acc : List String)
    (s : SPLSection) (x : String) (hx : x ∈ acc) :
    x ∈ processSectionDirections acc s := by
  rw [processSectionDirections]
  repeat' split
  all_goals first
    | exact hx
    | exact mem_extractBodyDirections_mono _ _ _ hx

theorem row_mem_processSectionDirections (acc : List String) (s : SPLSection)
    (b : SectionBody) (t : List (List String)) (r : String)
    (hcode : s.codes.contains "34068-7" = true) (hb : s.body = Option.some b)
    (ht : t ∈ b.tables) (hr : r ∈ process_table t) :
    r ∈ processSectionDirections acc s := by
  rw [processSectionDirections, if_pos hcode, hb]
  exact row_mem_extractBodyDirections acc b t r ht hr

theorem mem_foldl_processSectionDirections (doc : SPLDocument) :
    ∀ (acc : List String) (x : String), x ∈ acc →
      x ∈ doc.foldl processSectionDirections acc := by
  induction doc with
  | nil => intro acc x hx; exact hx
  | cons s rest ih =>
    intro acc x hx
    rw [List.foldl_cons]
    exact ih _ x (mem_processSectionDirections_mono acc s x hx)

theorem row_mem_directions_fragments (doc : SPLDocument) (sec : SPLSection)
    (b : SectionBody) (t : List (List String)) (r : String)
    (hsec : sec ∈ doc) (hcode : sec.codes.contains "34068-7" = true)
    (hb : sec.body = Option.some b) (ht : t ∈ b.tables)
    (hr : r ∈ process_table t) : r ∈ directions_fragments doc := by
  obtain ⟨l1, l2, rfl⟩ := List.append_of_mem hsec
  rw [directions_fragments, List.foldl_append, List.foldl_cons]
  exact mem_foldl_processSectionDirections l2 _ r
    (row_mem_processSectionDirections _ sec b t r hcode hb ht hr)

/-- C4, amended.  Table-row serialization happens only on the DIRECTIONS
path: for every document, every section carrying the directions code 34068-7
contributes every serialized row ("cell - cell - cell", empty cells skipped)
of every table of its body to the output of `extract_directions`.  (The
indications path has no table handling at all — see the counterexample.) -/
theorem C4_table_rows_in_directions (doc : SPLDocument) (sec : SPLSection)
    (b : SectionBody) (t : List (List String)) (r : String)
    (hsec : sec ∈ doc) (hcode : sec.codes.contains "34068-7" = true)
    (hb : sec.body = Option.some b) (ht : t ∈ b.tables)
    (hr : r ∈ process_table t) :
    ∃ ds : List String,
      extract_directions (Except.ok doc) =
        Option.some (String.intercalate "\n" ds) ∧ r ∈ ds :=
  ⟨dedupFirst (directions_fragments doc), rfl,
   (mem_dedupFirst _ r).mpr
     (row_mem_directions_fragments doc sec b t r hsec hcode hb ht hr)⟩

/-- C4 witness: a one-section document carrying the directions code with one
table row yields that serialized row among the newline-joined fragments. -/
theorem C4_witness :
    ∃ ds : List String,
      extract_directions (Except.ok [secDirTable]) =
        Option.some (String.intercalate "\n" ds) ∧ "cell1 - cell2" ∈ ds :=
  C4_table_rows_in_directions [secDirTable] secDirTable
    ⟨[], [], [[["cell1", "cell2"]]], ""⟩ [["cell1", "cell2"]] "cell1 - cell2"
    (by decide) (by decide) rfl (by decide) (by decide)

/-- C4 counterexample to "both section kinds extract table rows": a section
matched by the indications code 34067-9 whose body holds exactly one table
with the serializable row `["cell1", "cell2"]` produces the EMPTY indications
output — the serialized row "cell1 - cell2" (which `process_table` does
produce) is not included, because `extract_indication` has no table
handling. -/
theorem C4_counterexample :
    secIndTable.codes.contains "34067-9" = true ∧
    process_table [["cell1", "cell2"]] = ["cell1 - cell2"] ∧
    extract_indication (Except.ok [secIndTable]) = Option.some [] := by
  refine ⟨by decide, by decide, by decide⟩

theorem mem_synFoldl_mono (sim : String → String → ℚ) (vecNorm : String → ℚ)
    (txt : String) (keys : List String) : ∀ (acc : List String) (x : String),
    x ∈ acc →
    x ∈ keys.foldl (fun synonyms term =>
      if vecNorm term ≠ 0 ∧ sim txt term > mkRat 8 10 then
        synonyms ++ synonym_lookup term
      else synonyms) acc := by
  induction keys with
  | nil => intro acc x hx; exact hx
  | cons k ks ih =>
    intro acc x hx
    rw [List.foldl_cons]
    apply ih
    split
    · exact List.mem_append_left _ hx
    · exact hx

theorem cluster_mem_synFoldl (sim : String → String → ℚ)
    (vecNorm : String → ℚ) (txt : String) (keys : List String) :
    ∀ (acc : List String) (key : String), key ∈ keys → vecNorm key ≠ 0 →
    sim txt key > mkRat 8 10 → ∀ x ∈ synonym_lookup key,
    x ∈ keys.foldl (fun synonyms term =>
      if vecNorm term ≠ 0 ∧ sim txt term > mkRat 8 10 then
        synonyms ++ synonym_lookup term
      else synonyms) acc := by
  induction keys with
  | nil => intro acc key hkey; cases hkey
  | cons k ks ih =>
    intro acc key hkey hn hs x hx
    rw [List.foldl_cons]
    rcases List.mem_cons.mp hkey with rfl | hkey2
    · apply mem_synFoldl_mono
      rw [if_pos ⟨hn, hs⟩]
      exact List.mem_append_right _ hx
    · exact ih _ key hkey2 hn hs x hx

/-- C7, amended.  `get_synonyms` unions in the full synonym cluster
(`synonym_lookup[key]`) of every table key whose injected similarity against
the lowercased phrase is STRICTLY GREATER than 0.8 (the source compares with
`>`, not `≥`; the vector norms of the phrase and of the key must also be
nonzero, as the source skips zero-norm vectors). -/
theorem C7_cluster_union (sim : String → String → ℚ) (vecNorm : String → ℚ)
    (phrase key x : String) (hkey : key ∈ synonym_lookup_keys)
    (hnp : vecNorm (pyLower phrase) ≠ 0) (hnk : vecNorm key ≠ 0)
    (hsim : sim (pyLower phrase) key > mkRat 8 10)
    (hx : x ∈ synonym_lookup key) : x ∈ get_synonyms sim vecNorm phrase := by
  rw [get_synonyms]
  rw [if_pos hnp]
  exact cluster_mem_synFoldl sim vecNorm (pyLower phrase) synonym_lookup_keys
    [] key hkey hnk hsim x hx

/-- C7 witness: with a similarity capability scoring identical strings at 1
(> 0.8) and nonvanishing norms, `get_synonyms("hypertension")` includes
"high blood pressure" — the spec's reflexive-cluster-closure example. -/
theorem C7_witness :
    simId (pyLower "hypertension") "hypertension" > mkRat 8 10 ∧
    "high blood pressure" ∈ get_synonyms simId normOne "hypertension" :=
  ⟨by decide,
   C7_cluster_union simId normOne "hypertension" "hypertension"
     "high blood pressure" (by decide) (by decide) (by decide) (by decide)
     (by decide)⟩

/-- C7 counterexample to "unions in the cluster of every key scoring ≥ 0.8":
`sim08` scores the pair ("flu", "hypertension") at exactly 0.8, which
satisfies ≥ 0.8, the norms are nonzero, and "high blood pressure" belongs to
the "hypertension" cluster — yet `get_synonyms` does not return it, because
the source requires similarity STRICTLY greater than 0.8. -/
theorem C7_counterexample :
    mkRat 8 10 ≤ sim08 (pyLower "flu") "hypertension" ∧
    "hypertension" ∈ synonym_lookup_keys ∧
    normOne (pyLower "flu") ≠ 0 ∧ normOne "hypertension" ≠ 0 ∧
    "high blood pressure" ∈ synonym_lookup "hypertension" ∧
    "high blood pressure" ∉ get_synonyms sim08 normOne "flu" :=
  ⟨by decide, by decide, by decide, by decide, by decide, by decide⟩

/-- C8.  For a section without a controlled-code match but with a title, the
two kinds dispatch asymmetrically on the fixed keyword lists: the indications
extraction fires iff some keyword, lowercased, EQUALS the lowercased title,
while the directions extraction fires iff some keyword, lowercased, is
CONTAINED as a substring in the lowercased title. -/
theorem C8_title_match_asymmetry (acc : List String) (sec : SPLSection)
    (t : String) (h1 : sec.codes.contains "34067-9" = false)
    (h2 : sec.codes.contains "34068-7" = false)
    (ht : sec.title = Option.some t) :
    (processSectionIndication acc sec =
      if ∃ kw ∈ INDICATION_KEYWORDS, pyLower kw = pyLower t then
        (match sec.body with
         | Option.some b => extractBodyIndication acc b
         | Option.none => acc)
      else acc) ∧
    (processSectionDirections acc sec =
      if ∃ kw ∈ DIRECTION_KEYWORDS, pyIn (pyLower kw) (pyLower t) = true then
        (match sec.body with
         | Option.some b => extractBodyDirections acc b
         | Option.none => acc)
      else acc) := by
  obtain ⟨codes, title, body⟩ := sec
  dsimp only at h1 h2 ht ⊢
  subst ht
  have hiff1 : (titleMatchesIndication (pyLower t) = true) ↔
      ∃ kw ∈ INDICATION_KEYWORDS, pyLower kw = pyLower t := by
    simp [titleMatchesIndication, List.any_eq_true]
  have hiff2 : (titleMatchesDirections (pyLower t) = true) ↔
      ∃ kw ∈ DIRECTION_KEYWORDS, pyIn (pyLower kw) (pyLower t) = true := by
    simp [titleMatchesDirections, List.any_eq_true]
  constructor
  · rw [processSectionIndication, if_neg (by simpa using h1)]
    simp only [hiff1]
  · rw [processSectionDirections, if_neg (by simpa using h2)]
    simp only [hiff2]

/-- C8 witness: the code-free section titled "How to use lotion" — a title
that strictly CONTAINS the direction keyword "How to use" and strictly
contains the indication keyword "Use" without being equal to any indication
keyword — dispatches per the asymmetric rule of the theorem. -/
theorem C8_witness :
    (processSectionIndication [] secTitled =
      if ∃ kw ∈ INDICATION_KEYWORDS,
          pyLower kw = pyLower "How to use lotion" then
        (match secTitled.body with
         | Option.some b => extractBodyIndication [] b
         | Option.none => [])
      else []) ∧
    (processSectionDirections [] secTitled =
      if ∃ kw ∈ DIRECTION_KEYWORDS,
          pyIn (pyLower kw) (pyLower "How to use lotion") = true then
        (match secTitled.body with
         | Option.some b => extractBodyDirections [] b
         | Option.none => [])
      else []) :=
  C8_title_match_asymmetry [] secTitled "How to use lotion"
    (by decide) (by decide) rfl
